import Mathlib

/-!
Verification of the send-orchestration engine of the
whatsapp-message-automator-node repository, shallowly embedded in Lean 4.

The embedding follows the source files:
* `src/stateTracker.js` (`StateTracker`: `generateHash`, `load`, `save`,
  `wasMessageSent`, `getMessageInfo`, `markAsSent`),
* `src/retryLogic.js` (`retryWithBackoff`, `RateLimiter`),
* `src/csvParser.js` (`validateContacts`),
* `src/index.js` (`WhatsAppAutomationApp.initialize`, `WhatsAppAutomationApp.run`,
  `main`).

Modelling conventions:
* JavaScript objects used as string-keyed maps (`state.sentMessages`) become
  association lists `List (String × Entry)`; property assignment keeps the
  position of an existing key and appends a fresh key, exactly as JS insertion
  order does.
* The SHA-256 digest applied by `generateHash` is kept abstract: every
  definition and theorem is parametric in `digest : String → String`, applied
  to the pre-hash content string `phone ++ ":" ++ message` that the source
  builds.  All ledger operations use the digest only as a key, so every
  theorem below holds for the real SHA-256 instance.
* Asynchronous fallible calls (the transport send wrapped in
  `retryWithBackoff`, the `fs.writeFile` inside `StateTracker.save`) are
  driven by boolean oracles indexed by the contact position; wall-clock
  readings are driven by explicit time arguments.
* Durable state is a pair of ledgers: `mem` (the in-memory
  `state.sentMessages`) and `disk` (what the state file holds); `save`
  copies `mem` to `disk` or throws.
-/

namespace WhatsAppAutomator

/-- A validated contact: the normalized `phone` value together with the
remaining CSV fields (ordered string-keyed map), as produced by
`validateContacts` in `src/csvParser.js`. -/
structure Contact where
  phone : String
  fields : List (String × String)
deriving Repr, DecidableEq

/-- A raw CSV row before validation: an ordered field map. -/
abbrev RawContact := List (String × String)

/-- A ledger entry, as stored by `StateTracker.markAsSent`:
`{ phone, messageHash, timestamp, ...metadata }`.  The orchestrator passes
`{ contact }` as metadata, so the metadata blob is modelled as a `Contact`. -/
structure Entry where
  phone : String
  messageHash : String
  timestamp : Nat
  meta : Contact
deriving Repr, DecidableEq

/-- The in-memory map `state.sentMessages` of `StateTracker`, modelled as an
association list in key-insertion order. -/
abbrev Ledger := List (String × Entry)

/-- The pre-hash content string built by `StateTracker.generateHash`:
`` `${phone}:${message}` ``. -/
def hashContent (phone message : String) : String :=
  phone ++ ":" ++ message

/-- `StateTracker.generateHash`: the digest of the content string.  The
SHA-256 function itself is the parameter `digest`. -/
def generateHash (digest : String → String) (phone message : String) : String :=
  digest (hashContent phone message)

/-- The keys of a ledger, in insertion order. -/
def ledgerKeys (l : Ledger) : List String :=
  l.map (fun p => p.1)

/-- JS object property assignment `state.sentMessages[hash] = entry`:
overwrites in place if the key exists, otherwise appends. -/
def insertEntry (l : Ledger) (k : String) (e : Entry) : Ledger :=
  if l.any (fun p => p.1 = k) then
    l.map (fun p => if p.1 = k then (k, e) else p)
  else
    l ++ [(k, e)]

/-- `StateTracker.wasMessageSent`: membership of the fingerprint among the
ledger keys (`hash in this.state.sentMessages`). -/
def wasMessageSent (digest : String → String) (l : Ledger)
    (phone message : String) : Bool :=
  (ledgerKeys l).contains (generateHash digest phone message)

/-- `StateTracker.getMessageInfo`: the stored entry for the fingerprint, or
`none` (`this.state.sentMessages[hash] || null`). -/
def getMessageInfo (digest : String → String) (l : Ledger)
    (phone message : String) : Option Entry :=
  (l.find? (fun p => p.1 = generateHash digest phone message)).map (fun p => p.2)

/-- The durable state of one `StateTracker`: the in-memory ledger and the
ledger currently persisted in the state file. -/
structure TrackerState where
  mem : Ledger
  disk : Ledger
deriving Repr, DecidableEq

/-- `StateTracker.markAsSent`: inserts the entry into the in-memory map and
then calls `save`.  `saveOk` tells whether the `fs.writeFile` inside `save`
succeeds; on failure the in-memory map keeps the entry but the persisted
file is unchanged and the call throws (second component `false`). -/
def markAsSent (digest : String → String) (st : TrackerState)
    (phone message : String) (ts : Nat) (meta : Contact) (saveOk : Bool) :
    TrackerState × Bool :=
  let h := generateHash digest phone message
  let mem' := insertEntry st.mem h
    { phone := phone, messageHash := h, timestamp := ts, meta := meta }
  if saveOk then ({ mem := mem', disk := mem' }, true)
  else ({ mem := mem', disk := st.disk }, false)

/-! ### C5: tracker-operation algebra -/

/-- One call against the `StateTracker` interface used by the send flow. -/
inductive TrackerOp where
  | wasSent (phone message : String)
  | info (phone message : String)
  | mark (phone message : String) (ts : Nat) (meta : Contact) (saveOk : Bool)

/-- Effect of one tracker call on the tracker state: `wasMessageSent` and
`getMessageInfo` are pure reads, `markAsSent` inserts (even when the
persisting `save` throws, the in-memory entry has already been written). -/
def applyOp (digest : String → String) (st : TrackerState) :
    TrackerOp → TrackerState
  | .wasSent _ _ => st
  | .info _ _ => st
  | .mark p m ts meta ok => (markAsSent digest st p m ts meta ok).1

/-- Effect of a sequence of tracker calls. -/
def applyOps (digest : String → String) (ops : List TrackerOp)
    (st : TrackerState) : TrackerState :=
  ops.foldl (applyOp digest) st

/-! ### The send orchestrator (`WhatsAppAutomationApp.run`) -/

/-- Observable side effects of the orchestrator loop: invocations of the
retry-wrapped transport send, calls to `StateTracker.markAsSent`, calls to
`RateLimiter.wait`, and failure screenshots. -/
structure Effects where
  transportCalls : Nat
  markCalls : Nat
  waits : Nat
  screenshots : Nat
deriving Repr, DecidableEq

/-- The orchestrator's running state: the tracker (in-memory + persisted
ledger), the `stats` counters of `run()`, and the accumulated effects. -/
structure RunState where
  tracker : TrackerState
  total : Nat
  sent : Nat
  skipped : Nat
  failed : Nat
  eff : Effects
deriving Repr, DecidableEq

/-- One iteration of the contact loop in `WhatsAppAutomationApp.run`
(src/index.js lines 210–288).  `render` is the external
`renderTemplate(template, ·)` collaborator; `sendOk` says whether the
`retryWithBackoff`-wrapped `whatsapp.sendMessage` composite succeeds;
`saveOk` says whether the `fs.writeFile` inside `markAsSent`'s `save`
succeeds; `ts` is the clock reading used for the ledger timestamp.
Branches, in source order: duplicate skip, dry run, rate-limit wait then
send then mark; the surrounding `try`/`catch` turns a send failure or a
mark failure into `stats.failed++` plus a screenshot, and continues. -/
def processContact (digest : String → String) (render : Contact → String)
    (dryRun : Bool) (sendOk saveOk : Bool) (ts : Nat)
    (st : RunState) (c : Contact) : RunState :=
  let message := render c
  if wasMessageSent digest st.tracker.mem c.phone message then
    { st with skipped := st.skipped + 1 }
  else if dryRun then
    { st with sent := st.sent + 1 }
  else
    let st₁ := { st with eff := { st.eff with waits := st.eff.waits + 1 } }
    if sendOk then
      let st₂ := { st₁ with eff :=
        { st₁.eff with transportCalls := st₁.eff.transportCalls + 1,
                       markCalls := st₁.eff.markCalls + 1 } }
      let res := markAsSent digest st₂.tracker c.phone message ts c saveOk
      if res.2 then
        { st₂ with tracker := res.1, sent := st₂.sent + 1 }
      else
        { st₂ with tracker := res.1, failed := st₂.failed + 1,
                   eff := { st₂.eff with screenshots := st₂.eff.screenshots + 1 } }
    else
      { st₁ with failed := st₁.failed + 1,
                 eff := { st₁.eff with
                   transportCalls := st₁.eff.transportCalls + 1,
                   screenshots := st₁.eff.screenshots + 1 } }

/-- The contact loop of `run()`, indexed so the per-contact oracles can
depend on the position. -/
def runLoop (digest : String → String) (render : Contact → String)
    (dryRun : Bool) (sendOk saveOk : Nat → Bool) (clock : Nat → Nat) :
    List Contact → Nat → RunState → RunState
  | [], _, st => st
  | c :: cs, i, st =>
      runLoop digest render dryRun sendOk saveOk clock cs (i + 1)
        (processContact digest render dryRun (sendOk i) (saveOk i) (clock i) st c)

/-- The `stats` object created at the top of the loop:
`{ total: valid.length, sent: 0, skipped: 0, failed: 0 }`, with no effects
performed yet. -/
def initialStats (tracker : TrackerState) (n : Nat) : RunState :=
  { tracker := tracker, total := n, sent := 0, skipped := 0, failed := 0,
    eff := { transportCalls := 0, markCalls := 0, waits := 0, screenshots := 0 } }

/-- `WhatsAppAutomationApp.run` from the point where the validated contacts
are known: returns `none` when there are no valid contacts (the early
`return` at src/index.js line 168), otherwise the loop's final state. -/
def runApp (digest : String → String) (render : Contact → String)
    (dryRun : Bool) (sendOk saveOk : Nat → Bool) (clock : Nat → Nat)
    (valid : List Contact) (tracker : TrackerState) : Option RunState :=
  if valid.isEmpty then none
  else some (runLoop digest render dryRun sendOk saveOk clock valid 0
    (initialStats tracker valid.length))

/-- The transport handle; `WhatsAppAutomationApp.initialize` constructs a
`WhatsAppAutomation` instance only when not in dry-run mode
(src/index.js lines 140–143). -/
structure TransportHandle where
  mk' ::
deriving Repr, DecidableEq

/-- The `initialize()` decision `if (!this.dryRun) { this.whatsapp = new
WhatsAppAutomation(...) }`. -/
def initTransport (dryRun : Bool) : Option TransportHandle :=
  if dryRun then none else some ⟨⟩

/-- The fingerprint the orchestrator computes for one contact:
`generateHash(contact.phone, renderTemplate(template, contact))`. -/
def contactFingerprint (digest : String → String) (render : Contact → String)
    (c : Contact) : String :=
  generateHash digest c.phone (render c)

/-! ### The retry governor (`retryWithBackoff`, src/retryLogic.js) -/

/-- The retry configuration destructured at the top of `retryWithBackoff`.
Delays are exact rationals (JS numbers carry no rounding in the ranges the
program uses). -/
structure RetryConfig where
  max_attempts : Nat
  initial_delay_ms : ℚ
  max_delay_ms : ℚ
  backoff_multiplier : ℚ
deriving Repr, DecidableEq

/-- What one call of `retryWithBackoff` does: the returned or thrown value,
the number of invocations of `fn`, and the backoff sleeps in order. -/
structure RetryOutcome (α : Type) where
  result : Except String α
  attempts : Nat
  sleeps : List ℚ

/-- The error message of a failed operation (`error.message`). -/
def errMsgOf {α : Type} : Except String α → String
  | Except.ok _ => ""
  | Except.error e => e

/-- Whether an operation succeeded. -/
def isOkE {α : Type} : Except String α → Bool
  | Except.ok _ => true
  | Except.error _ => false

/-- The loop of `retryWithBackoff` (src/retryLogic.js lines 109–137),
recursing on the number of remaining attempts.  `fn k` is the outcome the
operation would produce on its k-th invocation (1-indexed), `attempt` the
current attempt number, `delay` the current backoff delay.  On a failed
non-final attempt it sleeps `delay` and continues with
`min (delay * backoff_multiplier) max_delay_ms`; after the final failed
attempt it throws the aggregate error naming the exhausted attempt count
and the last underlying message.  The `remaining = 0` case is never reached
from `retryWithBackoff` when `max_attempts ≥ 1` (with `max_attempts = 0`
the JS function would crash reading `lastError.message`). -/
def retryLoop {α : Type} (fn : Nat → Except String α) (mult maxD : ℚ)
    (maxA : Nat) : Nat → Nat → ℚ → RetryOutcome α
  | _, 0, _ =>
      { result := Except.error "Operation failed after 0 attempts",
        attempts := 0, sleeps := [] }
  | attempt, r + 1, delay =>
    match fn attempt with
    | Except.ok v => { result := Except.ok v, attempts := 1, sleeps := [] }
    | Except.error e =>
      match r with
      | 0 =>
          { result := Except.error ("Operation failed after " ++ toString maxA
              ++ " attempts. Last error: " ++ e),
            attempts := 1, sleeps := [] }
      | r' + 1 =>
          let rest := retryLoop fn mult maxD maxA (attempt + 1) (r' + 1)
            (min (delay * mult) maxD)
          { result := rest.result, attempts := rest.attempts + 1,
            sleeps := delay :: rest.sleeps }

/-- `retryWithBackoff(fn, config)`: run the loop starting at attempt 1 with
`delay = initial_delay_ms`. -/
def retryWithBackoff {α : Type} (fn : Nat → Except String α)
    (cfg : RetryConfig) : RetryOutcome α :=
  retryLoop fn cfg.backoff_multiplier cfg.max_delay_ms cfg.max_attempts
    1 cfg.max_attempts cfg.initial_delay_ms

/-- The sequence of backoff delays: `n` entries starting at `d`, each next
one `min (previous * mult) maxD`. -/
def delaySeq (mult maxD : ℚ) : ℚ → Nat → List ℚ
  | _, 0 => []
  | d, n + 1 => d :: delaySeq mult maxD (min (d * mult) maxD) n

/-! ### The pacing gate (`RateLimiter`, src/retryLogic.js) -/

/-- The `RateLimiter` instance state: `minDelayMs = 1000 / messagesPerSecond`
and the `lastMessageTime` field (0 after construction or `reset()`). -/
structure RateLimiterState where
  minDelayMs : ℚ
  lastMessageTime : ℚ
deriving Repr, DecidableEq

/-- The `RateLimiter` constructor for a rate of `messagesPerSecond`. -/
def mkRateLimiter (messagesPerSecond : ℚ) : RateLimiterState :=
  { minDelayMs := 1000 / messagesPerSecond, lastMessageTime := 0 }

/-- `RateLimiter.reset()`. -/
def rateLimiterReset (st : RateLimiterState) : RateLimiterState :=
  { st with lastMessageTime := 0 }

/-- Result of one `wait()` call: how long it slept, the idealized time at
which it returns (`now + sleptMs`), and the updated limiter state. -/
structure WaitResult where
  sleptMs : ℚ
  returnTime : ℚ
  state : RateLimiterState
deriving Repr, DecidableEq

/-- `RateLimiter.wait()` called at wall-clock time `now`: if less than
`minDelayMs` has elapsed since `lastMessageTime`, sleep exactly the
remaining difference; afterwards record the current time (`Date.now()`
after the sleep, i.e. `now + sleptMs`) as `lastMessageTime`. -/
def rateLimiterWait (st : RateLimiterState) (now : ℚ) : WaitResult :=
  let timeSince := now - st.lastMessageTime
  if timeSince < st.minDelayMs then
    let delayNeeded := st.minDelayMs - timeSince
    { sleptMs := delayNeeded, returnTime := now + delayNeeded,
      state := { st with lastMessageTime := now + delayNeeded } }
  else
    { sleptMs := 0, returnTime := now,
      state := { st with lastMessageTime := now } }

/-- The return times of `gaps.length + 1` consecutive `wait()` calls: the
first call happens at time `start`, each later call `g` milliseconds after
the previous call returned. -/
def waitTimes (st : RateLimiterState) (start : ℚ) : List ℚ → List ℚ
  | [] => [(rateLimiterWait st start).returnTime]
  | g :: gs =>
      (rateLimiterWait st start).returnTime ::
        waitTimes (rateLimiterWait st start).state
          ((rateLimiterWait st start).returnTime + g) gs

/-! ### Contact validation (`validateContacts`, src/csvParser.js) -/

/-- The key normalization used to locate a phone-equivalent column:
`key.toLowerCase().replace(/[_\s-]/g, '')`. -/
def normalizeFieldKey (k : String) : String :=
  String.mk ((k.data.map Char.toLower).filter
    (fun ch => !(ch.isWhitespace || ch = '_' || ch = '-')))

/-- Whether a column name counts as the phone column (`'phone'` or
`'phonenumber'` after normalization). -/
def isPhoneKey (k : String) : Bool :=
  normalizeFieldKey k = "phone" || normalizeFieldKey k = "phonenumber"

/-- `Object.keys(contact).find(...)`: the first phone-equivalent key. -/
def findPhoneKey (c : RawContact) : Option String :=
  (c.map (fun p => p.1)).find? isPhoneKey

/-- Field lookup in the raw row. -/
def lookupField (c : RawContact) (k : String) : Option String :=
  (c.find? (fun p => p.1 = k)).map (fun p => p.2)

/-- `value.toString().replace(/[\s-()]/g, '')`: strip whitespace, dashes
and parentheses. -/
def stripPhoneChars (v : String) : String :=
  String.mk (v.data.filter
    (fun ch => !(ch.isWhitespace || ch = '-' || ch = '(' || ch = ')')))

/-- Phone cleanup in `validateContacts`: strip separators, then prepend
`'+'` unless the result already starts with it
(`phone.startsWith('+')`). -/
def cleanPhone (v : String) : String :=
  let s := stripPhoneChars v
  if s.data.head? = some '+' then s else "+" ++ s

/-- One row of `validateContacts`: locate the phone-equivalent field; if it
exists with a truthy (non-empty) value, produce the validated contact with
the cleaned phone (the remaining fields keep their order); otherwise the
row is invalid.  In the source the row object is renamed/mutated in place;
here the normalized `phone` lives in `Contact.phone` and `fields` holds the
other columns. -/
def validateOne (c : RawContact) : Option Contact :=
  match findPhoneKey c with
  | none => none
  | some k =>
    match lookupField c k with
    | none => none
    | some v =>
      if v = "" then none
      else some { phone := cleanPhone v, fields := c.filter (fun p => p.1 ≠ k) }

/-- The fold of `validateContacts` over the rows, tracking the CSV row
number (`index + 2`, as the source reports 1-based rows below a header). -/
def validateAux : List RawContact → Nat →
    List Contact × List (Nat × RawContact × String)
  | [], _ => ([], [])
  | c :: cs, i =>
    let rest := validateAux cs (i + 1)
    match validateOne c with
    | some ct => (ct :: rest.1, rest.2)
    | none => (rest.1, (i + 2, c, "Missing phone number") :: rest.2)

/-- `validateContacts(contacts)`: the `{ valid, invalid }` pair. -/
def validateContacts (contacts : List RawContact) :
    List Contact × List (Nat × RawContact × String) :=
  validateAux contacts 0

/-- The spec's wording of "international format": a leading `'+'` followed
by digits only.  (This is the claim's property, not the source's check —
the source performs no digit validation.) -/
def isIntlPhone (s : String) : Bool :=
  match s.data with
  | '+' :: rest => rest.all Char.isDigit
  | _ => false

/-! ### Ledger loading and process exit (`StateTracker.load`, `main`) -/

/-- The persisted state file as `StateTracker.load` can encounter it:
absent, present but corrupt (unreadable / invalid JSON), or present with a
decodable ledger. -/
inductive FileModel where
  | missing
  | corrupt
  | stored (l : Ledger)
deriving Repr, DecidableEq

/-- `StateTracker.load()`: when the file is missing, initialize the empty
state and persist it immediately (the returned `FileModel.stored []` is the
freshly written file); when the file is corrupt, rethrow the parse error;
otherwise read the ledger into memory (in-memory and persisted agree). -/
def loadState : FileModel → Except String (TrackerState × FileModel)
  | FileModel.missing => Except.ok (⟨[], []⟩, FileModel.stored [])
  | FileModel.corrupt => Except.error "Failed to load state"
  | FileModel.stored l => Except.ok (⟨l, l⟩, FileModel.stored l)

/-- The `main` entry point around the orchestrator: `initialize()` calls
`stateTracker.load()`; a load error escapes `initialize`, is caught in
`main`'s try/catch and leads to `process.exit(1)` with no contact
processed; otherwise the run proceeds (per-contact failures are absorbed
inside the loop) and `main` reaches `process.exit(0)`. -/
def mainExit (file : FileModel) (digest : String → String)
    (render : Contact → String) (dryRun : Bool) (sendOk saveOk : Nat → Bool)
    (clock : Nat → Nat) (valid : List Contact) : Nat × Option RunState :=
  match loadState file with
  | Except.error _ => (1, none)
  | Except.ok (tr, _) =>
      (0, runApp digest render dryRun sendOk saveOk clock valid tr)

/-! ## Theorems -/

/-! ### Basic ledger lemmas -/

theorem ledgerKeys_insertEntry_mem (l : Ledger) (k : String) (e : Entry)
    (h : k ∈ ledgerKeys l) :
    ledgerKeys (insertEntry l k e) = ledgerKeys l := by
  have hany : l.any (fun p => p.1 = k) = true := by
    simp only [ledgerKeys, List.mem_map] at h
    obtain ⟨p, hp, hpk⟩ := h
    simp only [List.any_eq_true, decide_eq_true_eq]
    exact ⟨p, hp, hpk⟩
  simp only [insertEntry, hany, if_true, ledgerKeys, List.map_map]
  apply List.map_congr_left
  intro p hp
  by_cases hpk : p.1 = k
  · simp [hpk]
  · simp [hpk]

theorem ledgerKeys_insertEntry_not_mem (l : Ledger) (k : String) (e : Entry)
    (h : k ∉ ledgerKeys l) :
    ledgerKeys (insertEntry l k e) = ledgerKeys l ++ [k] := by
  have hany : l.any (fun p => p.1 = k) = false := by
    simp only [List.any_eq_false, decide_eq_true_eq]
    intro p hp hpk
    exact h (by simp only [ledgerKeys, List.mem_map]; exact ⟨p, hp, hpk⟩)
  simp [insertEntry, hany, ledgerKeys]

theorem mem_ledgerKeys_insertEntry (l : Ledger) (k k' : String) (e : Entry)
    (h : k' ∈ ledgerKeys l) : k' ∈ ledgerKeys (insertEntry l k e) := by
  by_cases hk : k ∈ ledgerKeys l
  · rw [ledgerKeys_insertEntry_mem l k e hk]; exact h
  · rw [ledgerKeys_insertEntry_not_mem l k e hk]; exact List.mem_append_left _ h

theorem self_mem_ledgerKeys_insertEntry (l : Ledger) (k : String) (e : Entry) :
    k ∈ ledgerKeys (insertEntry l k e) := by
  by_cases hk : k ∈ ledgerKeys l
  · rw [ledgerKeys_insertEntry_mem l k e hk]; exact hk
  · rw [ledgerKeys_insertEntry_not_mem l k e hk]
    exact List.mem_append_right _ (List.mem_singleton.mpr rfl)

theorem nodup_ledgerKeys_insertEntry (l : Ledger) (k : String) (e : Entry)
    (h : (ledgerKeys l).Nodup) : (ledgerKeys (insertEntry l k e)).Nodup := by
  by_cases hk : k ∈ ledgerKeys l
  · rw [ledgerKeys_insertEntry_mem l k e hk]; exact h
  · rw [ledgerKeys_insertEntry_not_mem l k e hk]
    simp only [List.nodup_append, List.nodup_singleton, true_and]
    exact ⟨h, by simpa using hk⟩

theorem count_ledgerKeys_insertEntry (l : Ledger) (k : String) (e : Entry)
    (h : (ledgerKeys l).Nodup) :
    (ledgerKeys (insertEntry l k e)).count k = 1 := by
  by_cases hk : k ∈ ledgerKeys l
  · rw [ledgerKeys_insertEntry_mem l k e hk]
    exact List.count_eq_one_of_mem h hk
  · rw [ledgerKeys_insertEntry_not_mem l k e hk]
    rw [List.count_append]
    rw [List.count_eq_zero.mpr hk]
    simp

/-! ### C4: fingerprint content -/

/-- The list-level fact behind separator-based pairing: if neither left part
contains the separator, the concatenations agree only when both parts agree. -/
theorem colon_append_inj (a : List Char) :
    ∀ (b r s : List Char), ':' ∉ a → ':' ∉ b →
      a ++ ':' :: r = b ++ ':' :: s → a = b ∧ r = s := by
  induction a with
  | nil =>
    intro b r s _ hb heq
    cases b with
    | nil => simpa using heq
    | cons x xs =>
      simp only [List.nil_append, List.cons_append, List.cons.injEq] at heq
      exact absurd (heq.1 ▸ List.mem_cons_self x xs) (heq.1 ▸ hb)
  | cons x xs ih =>
    intro b r s ha hb heq
    cases b with
    | nil =>
      simp only [List.cons_append, List.nil_append, List.cons.injEq] at heq
      have : x = ':' := heq.1
      exact absurd (this ▸ List.mem_cons_self x xs) ha
    | cons y ys =>
      simp only [List.cons_append, List.cons.injEq] at heq
      have hx : x ∉ ({':'} : Set Char) := by
        intro hmem
        simp only [Set.mem_singleton_iff] at hmem
        exact ha (hmem ▸ List.mem_cons_self x xs)
      have ha' : ':' ∉ xs := fun hm => ha (List.mem_cons_of_mem x hm)
      have hb' : ':' ∉ ys := fun hm => hb (List.mem_cons_of_mem y hm)
      obtain ⟨h1, h2⟩ := heq
      obtain ⟨hab, hrs⟩ := ih ys r s ha' hb' h2
      exact ⟨by rw [h1, hab], hrs⟩

theorem hashContent_data (p m : String) :
    (hashContent p m).data = p.data ++ ':' :: m.data := by
  simp [hashContent, String.data_append]

theorem hashContent_inj (p₁ m₁ p₂ m₂ : String)
    (h1 : ':' ∉ p₁.data) (h2 : ':' ∉ p₂.data)
    (heq : hashContent p₁ m₁ = hashContent p₂ m₂) : p₁ = p₂ ∧ m₁ = m₂ := by
  have hdata : p₁.data ++ ':' :: m₁.data = p₂.data ++ ':' :: m₂.data := by
    rw [← hashContent_data, ← hashContent_data, heq]
  obtain ⟨hp, hm⟩ := colon_append_inj p₁.data p₂.data m₁.data m₂.data h1 h2 hdata
  exact ⟨String.ext hp, String.ext hm⟩

/-- C4 (counterexample): the claim asserts that for all unequal
(recipient, message) pairs the pre-hash strings differ, because the `":"`
separator is supposedly not usable by the phone field.  But the phone
normalization in `validateContacts` only strips whitespace, dashes and
parentheses, so `':'` survives in a phone value, and the two distinct pairs
`("+1:2", "m")` and `("+1", "2:m")` produce the same pre-hash string, hence
the same fingerprint for any digest function. -/
theorem claim4_counterexample :
    (("+1:2", "m") ≠ (("+1" : String), ("2:m" : String))) ∧
    hashContent "+1:2" "m" = hashContent "+1" "2:m" ∧
    generateHash id "+1:2" "m" = generateHash id "+1" "2:m" := by
  refine ⟨by decide, by decide, by decide⟩

/-- C4 (amended): the fingerprint is the digest of
`phone ++ ":" ++ message`; equal (phone, message) pairs always yield equal
fingerprints, so `wasMessageSent` answers the same on repeated calls; and
for pairs that are unequal *and whose phone values do not contain the
separator `':'`*, the pre-hash strings differ (the code does not forbid `':'`
in phones, which is exactly what the counterexample exploits). -/
theorem claim4_fingerprint (digest : String → String) (p₁ m₁ p₂ m₂ : String)
    (h1 : ':' ∉ p₁.data) (h2 : ':' ∉ p₂.data) :
    (∀ p m, generateHash digest p m = digest (p ++ ":" ++ m)) ∧
    (∀ l : Ledger, p₁ = p₂ → m₁ = m₂ →
      wasMessageSent digest l p₁ m₁ = wasMessageSent digest l p₂ m₂) ∧
    ((p₁, m₁) ≠ (p₂, m₂) → hashContent p₁ m₁ ≠ hashContent p₂ m₂) := by
  refine ⟨fun p m => rfl, fun l hp hm => by rw [hp, hm], fun hne heq => ?_⟩
  obtain ⟨hp, hm⟩ := hashContent_inj p₁ m₁ p₂ m₂ h1 h2 heq
  exact hne (by rw [hp, hm])

/-- Closed witness for C4 (amended) at concrete colon-free phones. -/
theorem claim4_witness :
    (∀ p m, generateHash id p m = id (p ++ ":" ++ m)) ∧
    (∀ l : Ledger, ("+1" : String) = "+2" → ("a" : String) = "b" →
      wasMessageSent id l "+1" "a" = wasMessageSent id l "+2" "b") ∧
    ((("+1" : String), ("a" : String)) ≠ (("+2" : String), ("b" : String)) →
      hashContent "+1" "a" ≠ hashContent "+2" "b") :=
  claim4_fingerprint id "+1" "a" "+2" "b" (by decide) (by decide)

/-! ### C5: tracker-operation algebra -/

theorem markAsSent_mem (digest : String → String) (st : TrackerState)
    (p m : String) (ts : Nat) (meta : Contact) (ok : Bool) :
    (markAsSent digest st p m ts meta ok).1.mem =
      insertEntry st.mem (generateHash digest p m)
        { phone := p, messageHash := generateHash digest p m,
          timestamp := ts, meta := meta } := by
  cases ok <;> rfl

theorem applyOps_nodup_mono (digest : String → String) :
    ∀ (ops : List TrackerOp) (st : TrackerState),
      (ledgerKeys st.mem).Nodup →
      (ledgerKeys (applyOps digest ops st).mem).Nodup ∧
      (∀ k, k ∈ ledgerKeys st.mem → k ∈ ledgerKeys (applyOps digest ops st).mem) := by
  intro ops
  induction ops with
  | nil => exact fun st h => ⟨h, fun k hk => hk⟩
  | cons op rest ih =>
    intro st h
    have hstep : (ledgerKeys (applyOp digest st op).mem).Nodup ∧
        (∀ k, k ∈ ledgerKeys st.mem → k ∈ ledgerKeys (applyOp digest st op).mem) := by
      cases op with
      | wasSent p m => exact ⟨h, fun k hk => hk⟩
      | info p m => exact ⟨h, fun k hk => hk⟩
      | mark p m ts meta ok =>
        constructor
        · rw [applyOp, markAsSent_mem]
          exact nodup_ledgerKeys_insertEntry _ _ _ h
        · intro k hk
          rw [applyOp, markAsSent_mem]
          exact mem_ledgerKeys_insertEntry _ _ _ _ hk
    have hrest := ih (applyOp digest st op) hstep.1
    refine ⟨hrest.1, fun k hk => hrest.2 k (hstep.2 k hk)⟩

/-- C5: marking the same (phone, message) twice leaves exactly one ledger
entry for that fingerprint (the second `markAsSent` overwrites rather than
duplicates), and over any sequence of `wasMessageSent` / `getMessageInfo` /
`markAsSent` calls the fingerprint keys stay duplicate-free and no entry is
ever deleted (every existing key survives). -/
theorem claim5_mark_idempotent (digest : String → String) (st : TrackerState)
    (p m : String) (t₁ t₂ : Nat) (meta₁ meta₂ : Contact) (ops : List TrackerOp)
    (hnd : (ledgerKeys st.mem).Nodup) :
    ((ledgerKeys ((markAsSent digest
        ((markAsSent digest st p m t₁ meta₁ true).1)
        p m t₂ meta₂ true).1).mem).count (generateHash digest p m) = 1) ∧
    (ledgerKeys (applyOps digest ops st).mem).Nodup ∧
    (∀ k, k ∈ ledgerKeys st.mem → k ∈ ledgerKeys (applyOps digest ops st).mem) := by
  refine ⟨?_, (applyOps_nodup_mono digest ops st hnd).1,
    (applyOps_nodup_mono digest ops st hnd).2⟩
  rw [markAsSent_mem, markAsSent_mem]
  apply count_ledgerKeys_insertEntry
  exact nodup_ledgerKeys_insertEntry _ _ _ hnd

/-! ### The send orchestrator (`WhatsAppAutomationApp.run`) -/

theorem processContact_counter_sum (digest : String → String)
    (render : Contact → String) (dryRun : Bool) (sendOk saveOk : Bool)
    (ts : Nat) (st : RunState) (c : Contact) :
    (processContact digest render dryRun sendOk saveOk ts st c).sent +
      (processContact digest render dryRun sendOk saveOk ts st c).skipped +
      (processContact digest render dryRun sendOk saveOk ts st c).failed =
      st.sent + st.skipped + st.failed + 1 := by
  unfold processContact
  by_cases h1 : wasMessageSent digest st.tracker.mem c.phone (render c)
  · simp [h1]; omega
  · by_cases h2 : dryRun
    · simp [h1, h2]; omega
    · by_cases h3 : sendOk
      · by_cases h4 : (markAsSent digest st.tracker c.phone (render c) ts c saveOk).2
        · simp [h1, h2, h3, h4]; omega
        · simp [h1, h2, h3, h4]; omega
      · simp [h1, h2, h3]; omega

theorem processContact_total (digest : String → String)
    (render : Contact → String) (dryRun : Bool) (sendOk saveOk : Bool)
    (ts : Nat) (st : RunState) (c : Contact) :
    (processContact digest render dryRun sendOk saveOk ts st c).total = st.total := by
  unfold processContact
  by_cases h1 : wasMessageSent digest st.tracker.mem c.phone (render c)
  · simp [h1]
  · by_cases h2 : dryRun
    · simp [h1, h2]
    · by_cases h3 : sendOk
      · by_cases h4 : (markAsSent digest st.tracker c.phone (render c) ts c saveOk).2
        · simp [h1, h2, h3, h4]
        · simp [h1, h2, h3, h4]
      · simp [h1, h2, h3]

/-- Exactly one of the three counters is incremented by one contact. -/
theorem processContact_exactly_one (digest : String → String)
    (render : Contact → String) (dryRun : Bool) (sendOk saveOk : Bool)
    (ts : Nat) (st : RunState) (c : Contact) :
    (let st' := processContact digest render dryRun sendOk saveOk ts st c
     (st'.sent = st.sent + 1 ∧ st'.skipped = st.skipped ∧ st'.failed = st.failed) ∨
     (st'.sent = st.sent ∧ st'.skipped = st.skipped + 1 ∧ st'.failed = st.failed) ∨
     (st'.sent = st.sent ∧ st'.skipped = st.skipped ∧ st'.failed = st.failed + 1)) := by
  unfold processContact
  by_cases h1 : wasMessageSent digest st.tracker.mem c.phone (render c)
  · right; left; simp [h1]
  · by_cases h2 : dryRun
    · left; simp [h1, h2]
    · by_cases h3 : sendOk
      · by_cases h4 : (markAsSent digest st.tracker c.phone (render c) ts c saveOk).2
        · left; simp [h1, h2, h3, h4]
        · right; right; simp [h1, h2, h3, h4]
      · right; right; simp [h1, h2, h3]

theorem runLoop_counter_sum (digest : String → String)
    (render : Contact → String) (dryRun : Bool) (sendOk saveOk : Nat → Bool)
    (clock : Nat → Nat) :
    ∀ (cs : List Contact) (i : Nat) (st : RunState),
      (runLoop digest render dryRun sendOk saveOk clock cs i st).sent +
        (runLoop digest render dryRun sendOk saveOk clock cs i st).skipped +
        (runLoop digest render dryRun sendOk saveOk clock cs i st).failed =
        st.sent + st.skipped + st.failed + cs.length ∧
      (runLoop digest render dryRun sendOk saveOk clock cs i st).total = st.total := by
  intro cs
  induction cs with
  | nil => intro i st; simp [runLoop]
  | cons c rest ih =>
    intro i st
    rw [runLoop]
    refine ⟨?_, ?_⟩
    · rw [(ih (i + 1) _).1, processContact_counter_sum]
      simp [List.length_cons]; omega
    · rw [(ih (i + 1) _).2, processContact_total]

/-- C1: at the end of the orchestrator loop, `total = sent + skipped +
failed`, with `total` equal to the number of valid contacts; and every
processed contact increments exactly one of the three counters.  Holds for
every nonempty valid-contact list, every digest, every rendering function,
every initial ledger state and every pattern of transport / persistence
successes and failures, in dry-run and live mode alike. -/
theorem claim1_stats_invariant (digest : String → String)
    (render : Contact → String) (dryRun : Bool) (sendOk saveOk : Nat → Bool)
    (clock : Nat → Nat) (valid : List Contact) (tracker : TrackerState)
    (hne : valid ≠ []) :
    (∃ st : RunState,
      runApp digest render dryRun sendOk saveOk clock valid tracker = some st ∧
      st.total = valid.length ∧
      st.total = st.sent + st.skipped + st.failed) ∧
    (∀ (so vo : Bool) (ts : Nat) (st : RunState) (c : Contact),
      (let st' := processContact digest render dryRun so vo ts st c
       (st'.sent = st.sent + 1 ∧ st'.skipped = st.skipped ∧ st'.failed = st.failed) ∨
       (st'.sent = st.sent ∧ st'.skipped = st.skipped + 1 ∧ st'.failed = st.failed) ∨
       (st'.sent = st.sent ∧ st'.skipped = st.skipped ∧ st'.failed = st.failed + 1))) := by
  constructor
  · refine ⟨runLoop digest render dryRun sendOk saveOk clock valid 0
      (initialStats tracker valid.length), ?_, ?_, ?_⟩
    · rw [runApp, if_neg (by simpa using hne)]
    · exact (runLoop_counter_sum digest render dryRun sendOk saveOk clock
        valid 0 (initialStats tracker valid.length)).2
    · rw [(runLoop_counter_sum digest render dryRun sendOk saveOk clock
        valid 0 (initialStats tracker valid.length)).1,
        (runLoop_counter_sum digest render dryRun sendOk saveOk clock
        valid 0 (initialStats tracker valid.length)).2]
      simp [initialStats]
  · intro so vo ts st c
    exact processContact_exactly_one digest render dryRun so vo ts st c

/-- Closed witness for C1: a one-contact run with an always-failing
transport still satisfies the invariant. -/
theorem claim1_witness :
    (∃ st : RunState,
      runApp id (fun c => c.phone) false (fun _ => false) (fun _ => true)
        (fun i => i) [⟨"+15551234567", []⟩] ⟨[], []⟩ = some st ∧
      st.total = [(⟨"+15551234567", []⟩ : Contact)].length ∧
      st.total = st.sent + st.skipped + st.failed) ∧
    (∀ (so vo : Bool) (ts : Nat) (st : RunState) (c : Contact),
      (let st' := processContact id (fun c => c.phone) false so vo ts st c
       (st'.sent = st.sent + 1 ∧ st'.skipped = st.skipped ∧ st'.failed = st.failed) ∨
       (st'.sent = st.sent ∧ st'.skipped = st.skipped + 1 ∧ st'.failed = st.failed) ∨
       (st'.sent = st.sent ∧ st'.skipped = st.skipped ∧ st'.failed = st.failed + 1))) :=
  claim1_stats_invariant id (fun c => c.phone) false (fun _ => false)
    (fun _ => true) (fun i => i) [⟨"+15551234567", []⟩] ⟨[], []⟩ (by decide)

theorem processContact_dry (digest : String → String)
    (render : Contact → String) (sendOk saveOk : Bool) (ts : Nat)
    (st : RunState) (c : Contact) :
    processContact digest render true sendOk saveOk ts st c =
      if wasMessageSent digest st.tracker.mem c.phone (render c) then
        { st with skipped := st.skipped + 1 }
      else
        { st with sent := st.sent + 1 } := by
  unfold processContact
  by_cases h : wasMessageSent digest st.tracker.mem c.phone (render c)
  · simp [h]
  · simp [h]

theorem runLoop_dry (digest : String → String) (render : Contact → String)
    (sendOk saveOk : Nat → Bool) (clock : Nat → Nat) :
    ∀ (cs : List Contact) (i : Nat) (st : RunState),
      (runLoop digest render true sendOk saveOk clock cs i st).tracker = st.tracker ∧
      (runLoop digest render true sendOk saveOk clock cs i st).eff = st.eff ∧
      (runLoop digest render true sendOk saveOk clock cs i st).failed = st.failed ∧
      (runLoop digest render true sendOk saveOk clock cs i st).total = st.total ∧
      (runLoop digest render true sendOk saveOk clock cs i st).sent =
        st.sent + cs.countP
          (fun c => !(wasMessageSent digest st.tracker.mem c.phone (render c))) ∧
      (runLoop digest render true sendOk saveOk clock cs i st).skipped =
        st.skipped + cs.countP
          (fun c => wasMessageSent digest st.tracker.mem c.phone (render c)) := by
  intro cs
  induction cs with
  | nil => intro i st; simp [runLoop]
  | cons c rest ih =>
    intro i st
    rw [runLoop, processContact_dry]
    by_cases h : wasMessageSent digest st.tracker.mem c.phone (render c)
    · rw [if_pos h]
      obtain ⟨h1, h2, h3, h4, h5, h6⟩ := ih (i + 1) { st with skipped := st.skipped + 1 }
      refine ⟨h1, h2, h3, h4, ?_, ?_⟩
      · rw [h5]; simp [List.countP_cons, h]; try omega
      · rw [h6]; simp [List.countP_cons, h]; try omega
    · rw [if_neg h]
      obtain ⟨h1, h2, h3, h4, h5, h6⟩ := ih (i + 1) { st with sent := st.sent + 1 }
      refine ⟨h1, h2, h3, h4, ?_, ?_⟩
      · rw [h5]; simp [List.countP_cons, h]; try omega
      · rw [h6]; simp [List.countP_cons, h]; try omega

/-- C3: with dry-run on, the orchestrator constructs no transport handle,
performs no transport call, no `markAsSent`, no pacing-gate wait and no
screenshot, and leaves both the in-memory and the persisted ledger exactly
as they were; every valid contact whose fingerprint is not already in the
ledger is counted as a (simulated) send, the rest are skipped, and nothing
fails; in particular two contacts against an empty ledger end with stats
`{total := 2, sent := 2, skipped := 0, failed := 0}` and an empty ledger. -/
theorem claim3_dry_run_frame (digest : String → String)
    (render : Contact → String) (sendOk saveOk : Nat → Bool)
    (clock : Nat → Nat) :
    initTransport true = none ∧
    (∀ (cs : List Contact) (i : Nat) (st : RunState),
      (runLoop digest render true sendOk saveOk clock cs i st).tracker = st.tracker ∧
      (runLoop digest render true sendOk saveOk clock cs i st).eff = st.eff ∧
      (runLoop digest render true sendOk saveOk clock cs i st).failed = st.failed ∧
      (runLoop digest render true sendOk saveOk clock cs i st).sent =
        st.sent + cs.countP
          (fun c => !(wasMessageSent digest st.tracker.mem c.phone (render c))) ∧
      (runLoop digest render true sendOk saveOk clock cs i st).skipped =
        st.skipped + cs.countP
          (fun c => wasMessageSent digest st.tracker.mem c.phone (render c))) ∧
    (∀ c₁ c₂ : Contact,
      runApp digest render true sendOk saveOk clock [c₁, c₂] ⟨[], []⟩ =
        some { tracker := ⟨[], []⟩, total := 2, sent := 2, skipped := 0,
               failed := 0,
               eff := { transportCalls := 0, markCalls := 0, waits := 0,
                        screenshots := 0 } }) := by
  refine ⟨rfl, ?_, ?_⟩
  · intro cs i st
    obtain ⟨h1, h2, h3, _, h5, h6⟩ := runLoop_dry digest render sendOk saveOk clock cs i st
    exact ⟨h1, h2, h3, h5, h6⟩
  · intro c₁ c₂
    rfl

theorem wasMessageSent_iff_mem (digest : String → String) (l : Ledger)
    (p m : String) :
    wasMessageSent digest l p m = true ↔ generateHash digest p m ∈ ledgerKeys l := by
  simp [wasMessageSent]

theorem processContact_mem_mono (digest : String → String)
    (render : Contact → String) (dr so vo : Bool) (ts : Nat)
    (st : RunState) (c : Contact) (k : String)
    (hk : k ∈ ledgerKeys st.tracker.mem) :
    k ∈ ledgerKeys (processContact digest render dr so vo ts st c).tracker.mem := by
  unfold processContact
  by_cases h1 : wasMessageSent digest st.tracker.mem c.phone (render c)
  · simpa [h1] using hk
  · by_cases h2 : dr
    · simpa [h1, h2] using hk
    · by_cases h3 : so
      · cases vo with
        | true =>
          simp only [h1, h2, h3, markAsSent]
          simp only [Bool.false_eq_true, if_false, if_true]
          exact mem_ledgerKeys_insertEntry _ _ _ _ hk
        | false =>
          simp only [h1, h2, h3, markAsSent]
          simp only [Bool.false_eq_true, if_false, if_true]
          exact mem_ledgerKeys_insertEntry _ _ _ _ hk
      · simpa [h1, h2, h3] using hk

theorem runLoop_mem_mono (digest : String → String)
    (render : Contact → String) (dr : Bool) (sendOk saveOk : Nat → Bool)
    (clock : Nat → Nat) :
    ∀ (cs : List Contact) (i : Nat) (st : RunState) (k : String),
      k ∈ ledgerKeys st.tracker.mem →
      k ∈ ledgerKeys
        (runLoop digest render dr sendOk saveOk clock cs i st).tracker.mem := by
  intro cs
  induction cs with
  | nil => intro i st k hk; exact hk
  | cons c rest ih =>
    intro i st k hk
    rw [runLoop]
    exact ih (i + 1) _ k (processContact_mem_mono digest render dr _ _ _ st c k hk)

theorem processContact_fp_mem (digest : String → String)
    (render : Contact → String) (ts : Nat) (st : RunState) (c : Contact) :
    contactFingerprint digest render c ∈
      ledgerKeys (processContact digest render false true true ts st c).tracker.mem := by
  unfold processContact
  by_cases h1 : wasMessageSent digest st.tracker.mem c.phone (render c)
  · have := (wasMessageSent_iff_mem digest st.tracker.mem c.phone (render c)).mp h1
    simpa [h1, contactFingerprint] using this
  · simp only [h1, Bool.false_eq_true, if_false, if_true, markAsSent]
    exact self_mem_ledgerKeys_insertEntry _ _ _

theorem processContact_disk_eq (digest : String → String)
    (render : Contact → String) (dr so : Bool) (ts : Nat)
    (st : RunState) (c : Contact)
    (hd : st.tracker.disk = st.tracker.mem) :
    (processContact digest render dr so true ts st c).tracker.disk =
      (processContact digest render dr so true ts st c).tracker.mem := by
  unfold processContact
  by_cases h1 : wasMessageSent digest st.tracker.mem c.phone (render c)
  · simpa [h1] using hd
  · by_cases h2 : dr
    · simpa [h1, h2] using hd
    · by_cases h3 : so
      · simp [h1, h2, h3, markAsSent]
      · simpa [h1, h2, h3] using hd

theorem runLoop_disk_eq (digest : String → String)
    (render : Contact → String) (dr : Bool) (sendOk saveOk : Nat → Bool)
    (clock : Nat → Nat) (hsave : ∀ j, saveOk j = true) :
    ∀ (cs : List Contact) (i : Nat) (st : RunState),
      st.tracker.disk = st.tracker.mem →
      (runLoop digest render dr sendOk saveOk clock cs i st).tracker.disk =
        (runLoop digest render dr sendOk saveOk clock cs i st).tracker.mem := by
  intro cs
  induction cs with
  | nil => intro i st hd; exact hd
  | cons c rest ih =>
    intro i st hd
    rw [runLoop]
    apply ih (i + 1)
    rw [hsave i]
    exact processContact_disk_eq digest render dr (sendOk i) (clock i) st c hd

theorem runLoop_all_sent_fp_mem (digest : String → String)
    (render : Contact → String) (sendOk saveOk : Nat → Bool)
    (clock : Nat → Nat) (hsend : ∀ j, sendOk j = true)
    (hsave : ∀ j, saveOk j = true) :
    ∀ (cs : List Contact) (i : Nat) (st : RunState) (c : Contact),
      c ∈ cs →
      contactFingerprint digest render c ∈
        ledgerKeys
          (runLoop digest render false sendOk saveOk clock cs i st).tracker.mem := by
  intro cs
  induction cs with
  | nil => intro i st c hc; cases hc
  | cons c₀ rest ih =>
    intro i st c hc
    rw [runLoop]
    rcases List.mem_cons.mp hc with hc | hc
    · subst hc
      apply runLoop_mem_mono
      rw [hsend i, hsave i]
      exact processContact_fp_mem digest render (clock i) st c
    · exact ih (i + 1) _ c hc

theorem runLoop_all_skip (digest : String → String)
    (render : Contact → String) (dr : Bool) (sendOk saveOk : Nat → Bool)
    (clock : Nat → Nat) :
    ∀ (cs : List Contact) (i : Nat) (st : RunState),
      (∀ c ∈ cs, wasMessageSent digest st.tracker.mem c.phone (render c) = true) →
      (runLoop digest render dr sendOk saveOk clock cs i st).tracker = st.tracker ∧
      (runLoop digest render dr sendOk saveOk clock cs i st).total = st.total ∧
      (runLoop digest render dr sendOk saveOk clock cs i st).sent = st.sent ∧
      (runLoop digest render dr sendOk saveOk clock cs i st).failed = st.failed ∧
      (runLoop digest render dr sendOk saveOk clock cs i st).eff = st.eff ∧
      (runLoop digest render dr sendOk saveOk clock cs i st).skipped =
        st.skipped + cs.length := by
  intro cs
  induction cs with
  | nil => intro i st _; simp [runLoop]
  | cons c rest ih =>
    intro i st hall
    have hc : wasMessageSent digest st.tracker.mem c.phone (render c) = true :=
      hall c (List.mem_cons_self c rest)
    have hstep : processContact digest render dr (sendOk i) (saveOk i) (clock i) st c =
        { st with skipped := st.skipped + 1 } := by
      unfold processContact
      simp [hc]
    rw [runLoop, hstep]
    obtain ⟨h1, h2, h3, h4, h5, h6⟩ := ih (i + 1) { st with skipped := st.skipped + 1 }
      (by intro c' hc'; exact hall c' (List.mem_cons_of_mem c hc'))
    refine ⟨h1, h2, h3, h4, h5, ?_⟩
    rw [h6]; simp [List.length_cons]; omega

/-- C6: if a live run over `valid` ends with every contact sent (the
transport and the persisting write succeed everywhere), then a second run
over the same contacts — starting from the ledger the first run persisted —
skips every contact: stats `{total := n, sent := 0, skipped := n,
failed := 0}`, the ledger (in-memory and persisted) is untouched, and the
second run performs no transport call, no `markAsSent` and no pacing-gate
wait.  Also, after the first run the persisted ledger agrees with the
in-memory one. -/
theorem claim6_second_run (digest : String → String)
    (render : Contact → String) (sendOk₁ saveOk₁ : Nat → Bool)
    (clock₁ : Nat → Nat) (sendOk₂ saveOk₂ : Nat → Bool) (clock₂ : Nat → Nat)
    (valid : List Contact) (tr₀ : TrackerState) (r₁ : RunState)
    (hd₀ : tr₀.disk = tr₀.mem)
    (hsend : ∀ j, sendOk₁ j = true) (hsave : ∀ j, saveOk₁ j = true)
    (hne : valid ≠ [])
    (hrun : runLoop digest render false sendOk₁ saveOk₁ clock₁ valid 0
      (initialStats tr₀ valid.length) = r₁)
    (_hall : r₁.sent = valid.length) :
    r₁.tracker.disk = r₁.tracker.mem ∧
    ∃ st₂ : RunState,
      runApp digest render false sendOk₂ saveOk₂ clock₂ valid
        ⟨r₁.tracker.disk, r₁.tracker.disk⟩ = some st₂ ∧
      st₂.total = valid.length ∧ st₂.sent = 0 ∧
      st₂.skipped = valid.length ∧ st₂.failed = 0 ∧
      st₂.tracker = ⟨r₁.tracker.disk, r₁.tracker.disk⟩ ∧
      st₂.eff.transportCalls = 0 ∧ st₂.eff.markCalls = 0 ∧ st₂.eff.waits = 0 := by
  have hdisk : r₁.tracker.disk = r₁.tracker.mem := by
    rw [← hrun]
    exact runLoop_disk_eq digest render false sendOk₁ saveOk₁ clock₁ hsave
      valid 0 (initialStats tr₀ valid.length) hd₀
  refine ⟨hdisk, ?_⟩
  have hfp : ∀ c ∈ valid,
      contactFingerprint digest render c ∈ ledgerKeys r₁.tracker.mem := by
    intro c hc
    rw [← hrun]
    exact runLoop_all_sent_fp_mem digest render sendOk₁ saveOk₁ clock₁
      hsend hsave valid 0 (initialStats tr₀ valid.length) c hc
  have hskip : ∀ c ∈ valid,
      wasMessageSent digest
        ((initialStats ⟨r₁.tracker.disk, r₁.tracker.disk⟩ valid.length).tracker.mem)
        c.phone (render c) = true := by
    intro c hc
    rw [wasMessageSent_iff_mem]
    show generateHash digest c.phone (render c) ∈ ledgerKeys r₁.tracker.disk
    rw [hdisk]
    exact hfp c hc
  obtain ⟨h1, h2, h3, h4, h5, h6⟩ := runLoop_all_skip digest render false
    sendOk₂ saveOk₂ clock₂ valid 0
    (initialStats ⟨r₁.tracker.disk, r₁.tracker.disk⟩ valid.length) hskip
  refine ⟨runLoop digest render false sendOk₂ saveOk₂ clock₂ valid 0
    (initialStats ⟨r₁.tracker.disk, r₁.tracker.disk⟩ valid.length), ?_, ?_, ?_, ?_, ?_, ?_, ?_, ?_, ?_⟩
  · rw [runApp, if_neg (by simpa using hne)]
  · rw [h2]; rfl
  · rw [h3]; rfl
  · rw [h6]; simp [initialStats]
  · rw [h4]; rfl
  · rw [h1]; rfl
  · rw [h5]; rfl
  · rw [h5]; rfl
  · rw [h5]; rfl

/-- Closed witness for C6: one contact, first run sends it, second run
skips it. -/
theorem claim6_witness :
    (let r₁ := runLoop id (fun c => "hi " ++ c.phone) false (fun _ => true)
      (fun _ => true) (fun i => i) [⟨"+15551234567", []⟩] 0
      (initialStats ⟨[], []⟩ 1)
     r₁.tracker.disk = r₁.tracker.mem ∧
     ∃ st₂ : RunState,
       runApp id (fun c => "hi " ++ c.phone) false (fun _ => true)
         (fun _ => true) (fun i => i) [⟨"+15551234567", []⟩]
         ⟨r₁.tracker.disk, r₁.tracker.disk⟩ = some st₂ ∧
       st₂.total = [(⟨"+15551234567", []⟩ : Contact)].length ∧ st₂.sent = 0 ∧
       st₂.skipped = [(⟨"+15551234567", []⟩ : Contact)].length ∧ st₂.failed = 0 ∧
       st₂.tracker = ⟨r₁.tracker.disk, r₁.tracker.disk⟩ ∧
       st₂.eff.transportCalls = 0 ∧ st₂.eff.markCalls = 0 ∧ st₂.eff.waits = 0) :=
  claim6_second_run id (fun c => "hi " ++ c.phone) (fun _ => true)
    (fun _ => true) (fun i => i) (fun _ => true) (fun _ => true) (fun i => i)
    [⟨"+15551234567", []⟩] ⟨[], []⟩
    (runLoop id (fun c => "hi " ++ c.phone) false (fun _ => true)
      (fun _ => true) (fun i => i) [⟨"+15551234567", []⟩] 0
      (initialStats ⟨[], []⟩ 1))
    rfl (fun _ => rfl) (fun _ => rfl) (by decide) rfl (by decide)

/-! ### The retry governor (`retryWithBackoff`, src/retryLogic.js) -/

theorem retryLoop_ok {α : Type} (fn : Nat → Except String α) (mult maxD : ℚ)
    (maxA attempt r : Nat) (d : ℚ) (v : α)
    (hfn : fn attempt = Except.ok v) :
    retryLoop fn mult maxD maxA attempt (r + 1) d =
      { result := Except.ok v, attempts := 1, sleeps := [] } := by
  conv_lhs => rw [retryLoop]
  rw [hfn]

theorem retryLoop_last_err {α : Type} (fn : Nat → Except String α)
    (mult maxD : ℚ) (maxA attempt : Nat) (d : ℚ) (e : String)
    (hfn : fn attempt = Except.error e) :
    retryLoop fn mult maxD maxA attempt 1 d =
      { result := Except.error ("Operation failed after " ++ toString maxA
          ++ " attempts. Last error: " ++ e),
        attempts := 1, sleeps := [] } := by
  conv_lhs => rw [retryLoop]
  rw [hfn]

theorem retryLoop_step_err {α : Type} (fn : Nat → Except String α)
    (mult maxD : ℚ) (maxA attempt r : Nat) (d : ℚ) (e : String)
    (hfn : fn attempt = Except.error e) :
    retryLoop fn mult maxD maxA attempt (r + 2) d =
      { result := (retryLoop fn mult maxD maxA (attempt + 1) (r + 1)
          (min (d * mult) maxD)).result,
        attempts := (retryLoop fn mult maxD maxA (attempt + 1) (r + 1)
          (min (d * mult) maxD)).attempts + 1,
        sleeps := d :: (retryLoop fn mult maxD maxA (attempt + 1) (r + 1)
          (min (d * mult) maxD)).sleeps } := by
  conv_lhs => rw [retryLoop]
  rw [hfn]

theorem retryLoop_attempts_le {α : Type} (fn : Nat → Except String α)
    (mult maxD : ℚ) (maxA : Nat) :
    ∀ (r attempt : Nat) (d : ℚ),
      (retryLoop fn mult maxD maxA attempt r d).attempts ≤ r := by
  intro r
  induction r with
  | zero => intro attempt d; rw [retryLoop]
  | succ r ih =>
    intro attempt d
    cases hfn : fn attempt with
    | ok v =>
      have h : (retryLoop fn mult maxD maxA attempt (r + 1) d).attempts = 1 := by
        rw [retryLoop_ok fn mult maxD maxA attempt r d v hfn]
      omega
    | error e =>
      cases r with
      | zero =>
        show (retryLoop fn mult maxD maxA attempt 1 d).attempts ≤ 1
        have h : (retryLoop fn mult maxD maxA attempt 1 d).attempts = 1 := by
          rw [retryLoop_last_err fn mult maxD maxA attempt d e hfn]
        omega
      | succ r' =>
        show (retryLoop fn mult maxD maxA attempt (r' + 2) d).attempts ≤ r' + 2
        have h : (retryLoop fn mult maxD maxA attempt (r' + 2) d).attempts =
            (retryLoop fn mult maxD maxA (attempt + 1) (r' + 1)
              (min (d * mult) maxD)).attempts + 1 := by
          rw [retryLoop_step_err fn mult maxD maxA attempt r' d e hfn]
        have := ih (attempt + 1) (min (d * mult) maxD)
        omega

theorem retryLoop_attempts_sleeps {α : Type} (fn : Nat → Except String α)
    (mult maxD : ℚ) (maxA : Nat) :
    ∀ (r attempt : Nat) (d : ℚ),
      (retryLoop fn mult maxD maxA attempt (r + 1) d).attempts =
        (retryLoop fn mult maxD maxA attempt (r + 1) d).sleeps.length + 1 := by
  intro r
  induction r with
  | zero =>
    intro attempt d
    cases hfn : fn attempt with
    | ok v =>
      rw [retryLoop_ok fn mult maxD maxA attempt 0 d v hfn]
      rfl
    | error e =>
      rw [retryLoop_last_err fn mult maxD maxA attempt d e hfn]
      rfl
  | succ r ih =>
    intro attempt d
    cases hfn : fn attempt with
    | ok v =>
      rw [retryLoop_ok fn mult maxD maxA attempt (r + 1) d v hfn]
      rfl
    | error e =>
      rw [retryLoop_step_err fn mult maxD maxA attempt r d e hfn]
      have := ih (attempt + 1) (min (d * mult) maxD)
      show (retryLoop fn mult maxD maxA (attempt + 1) (r + 1)
          (min (d * mult) maxD)).attempts + 1 =
        (d :: (retryLoop fn mult maxD maxA (attempt + 1) (r + 1)
          (min (d * mult) maxD)).sleeps).length + 1
      rw [List.length_cons]
      omega

theorem retryLoop_all_fail {α : Type} (fn : Nat → Except String α)
    (mult maxD : ℚ) (maxA : Nat) :
    ∀ (r attempt : Nat) (d : ℚ),
      (∀ k, attempt ≤ k → k ≤ attempt + r → isOkE (fn k) = false) →
      (retryLoop fn mult maxD maxA attempt (r + 1) d).result =
        Except.error ("Operation failed after " ++ toString maxA
          ++ " attempts. Last error: " ++ errMsgOf (fn (attempt + r))) ∧
      (retryLoop fn mult maxD maxA attempt (r + 1) d).attempts = r + 1 ∧
      (retryLoop fn mult maxD maxA attempt (r + 1) d).sleeps =
        delaySeq mult maxD d r := by
  intro r
  induction r with
  | zero =>
    intro attempt d h
    have hk := h attempt (Nat.le_refl _) (Nat.le_refl _)
    cases hfn : fn attempt with
    | ok v => rw [hfn] at hk; simp [isOkE] at hk
    | error e =>
      rw [retryLoop_last_err fn mult maxD maxA attempt d e hfn]
      refine ⟨?_, rfl, rfl⟩
      simp [hfn, errMsgOf]
  | succ r ih =>
    intro attempt d h
    have hk := h attempt (Nat.le_refl _) (by omega)
    cases hfn : fn attempt with
    | ok v => rw [hfn] at hk; simp [isOkE] at hk
    | error e =>
      have hrest := ih (attempt + 1) (min (d * mult) maxD)
        (fun k hk1 hk2 => h k (by omega) (by omega))
      have harith : attempt + 1 + r = attempt + (r + 1) := by omega
      rw [harith] at hrest
      rw [retryLoop_step_err fn mult maxD maxA attempt r d e hfn]
      refine ⟨hrest.1, ?_, ?_⟩
      · simp only [hrest.2.1]
      · simp only [hrest.2.2, delaySeq]

theorem retryLoop_first_success {α : Type} (fn : Nat → Except String α)
    (mult maxD : ℚ) (maxA : Nat) :
    ∀ (r attempt : Nat) (d : ℚ) (j : Nat) (v : α),
      attempt ≤ j → j ≤ attempt + r → fn j = Except.ok v →
      (∀ k, attempt ≤ k → k < j → isOkE (fn k) = false) →
      (retryLoop fn mult maxD maxA attempt (r + 1) d).result = Except.ok v ∧
      (retryLoop fn mult maxD maxA attempt (r + 1) d).attempts = j - attempt + 1 ∧
      (retryLoop fn mult maxD maxA attempt (r + 1) d).sleeps =
        delaySeq mult maxD d (j - attempt) := by
  intro r
  induction r with
  | zero =>
    intro attempt d j v h1 h2 hj _
    have hje : j = attempt := by omega
    subst hje
    rw [retryLoop_ok fn mult maxD maxA j 0 d v hj]
    refine ⟨rfl, by show 1 = j - j + 1; omega, ?_⟩
    have : j - j = 0 := by omega
    rw [this, delaySeq]
  | succ r ih =>
    intro attempt d j v h1 h2 hj hbefore
    by_cases hji : j = attempt
    · subst hji
      rw [retryLoop_ok fn mult maxD maxA j (r + 1) d v hj]
      refine ⟨rfl, by show 1 = j - j + 1; omega, ?_⟩
      have : j - j = 0 := by omega
      rw [this, delaySeq]
    · have hk := hbefore attempt (Nat.le_refl _) (by omega)
      cases hfn : fn attempt with
      | ok v' => rw [hfn] at hk; simp [isOkE] at hk
      | error e =>
        have hrest := ih (attempt + 1) (min (d * mult) maxD) j v (by omega)
          (by omega) hj (fun k hk1 hk2 => hbefore k (by omega) hk2)
        rw [retryLoop_step_err fn mult maxD maxA attempt r d e hfn]
        refine ⟨hrest.1, ?_, ?_⟩
        · simp only [hrest.2.1]; omega
        · simp only [hrest.2.2]
          have hsub : j - attempt = (j - (attempt + 1)) + 1 := by omega
          rw [hsub, delaySeq]

/-- C2: for every operation and every retry policy with `max_attempts ≥ 1`,
`retryWithBackoff` makes at most `max_attempts` invocations and always
sleeps exactly once less than it attempts (so sleeps happen only between
failed attempts, never after the last); if the operation first succeeds at
attempt `j`, the result is returned immediately after exactly `j`
invocations with the first `j - 1` backoff delays slept, the delays
starting at `initial_delay_ms` and each next one being
`min (previous * backoff_multiplier) max_delay_ms`; if every attempt fails,
all `max_attempts` invocations happen, the full delay sequence of length
`max_attempts - 1` is slept, and the aggregate error names the exhausted
attempt count and wraps the last underlying message; with
`max_attempts = 1` nothing is ever slept. -/
theorem claim2_retry_governor {α : Type} (fn : Nat → Except String α)
    (cfg : RetryConfig) (hmax : 1 ≤ cfg.max_attempts) :
    (retryWithBackoff fn cfg).attempts ≤ cfg.max_attempts ∧
    (retryWithBackoff fn cfg).attempts =
      (retryWithBackoff fn cfg).sleeps.length + 1 ∧
    (∀ (j : Nat) (v : α), 1 ≤ j → j ≤ cfg.max_attempts →
      fn j = Except.ok v →
      (∀ k, 1 ≤ k → k < j → isOkE (fn k) = false) →
      (retryWithBackoff fn cfg).result = Except.ok v ∧
      (retryWithBackoff fn cfg).attempts = j ∧
      (retryWithBackoff fn cfg).sleeps =
        delaySeq cfg.backoff_multiplier cfg.max_delay_ms
          cfg.initial_delay_ms (j - 1)) ∧
    ((∀ k, 1 ≤ k → k ≤ cfg.max_attempts → isOkE (fn k) = false) →
      (retryWithBackoff fn cfg).result =
        Except.error ("Operation failed after " ++ toString cfg.max_attempts
          ++ " attempts. Last error: " ++ errMsgOf (fn cfg.max_attempts)) ∧
      (retryWithBackoff fn cfg).attempts = cfg.max_attempts ∧
      (retryWithBackoff fn cfg).sleeps =
        delaySeq cfg.backoff_multiplier cfg.max_delay_ms
          cfg.initial_delay_ms (cfg.max_attempts - 1)) ∧
    (cfg.max_attempts = 1 → (retryWithBackoff fn cfg).sleeps = []) := by
  obtain ⟨r, hr⟩ : ∃ r, cfg.max_attempts = r + 1 :=
    ⟨cfg.max_attempts - 1, by omega⟩
  refine ⟨?_, ?_, ?_, ?_, ?_⟩
  · simp only [retryWithBackoff, hr]
    exact retryLoop_attempts_le fn _ _ _ _ _ _
  · simp only [retryWithBackoff, hr]
    exact retryLoop_attempts_sleeps fn _ _ _ _ _ _
  · intro j v hj1 hj2 hjok hbefore
    rw [hr] at hj2
    simp only [retryWithBackoff, hr]
    have hthis := retryLoop_first_success fn cfg.backoff_multiplier
      cfg.max_delay_ms (r + 1) r 1 cfg.initial_delay_ms j v hj1
      (by omega) hjok (fun k hk1 hk2 => hbefore k hk1 hk2)
    refine ⟨hthis.1, ?_, ?_⟩
    · rw [hthis.2.1]; omega
    · exact hthis.2.2
  · intro hfail
    simp only [retryWithBackoff, hr]
    have hthis := retryLoop_all_fail fn cfg.backoff_multiplier cfg.max_delay_ms
      (r + 1) r 1 cfg.initial_delay_ms
      (fun k hk1 hk2 => hfail k hk1 (by omega))
    have h1r : 1 + r = r + 1 := by omega
    rw [h1r] at hthis
    have hsub : r + 1 - 1 = r := by omega
    rw [hsub]
    exact hthis
  · intro h1
    have hr0 : r = 0 := by omega
    subst hr0
    simp only [retryWithBackoff, hr, Nat.zero_add]
    cases hfn : fn 1 with
    | ok v =>
      rw [retryLoop_ok fn cfg.backoff_multiplier cfg.max_delay_ms
        1 1 0 cfg.initial_delay_ms v hfn]
    | error e =>
      rw [retryLoop_last_err fn cfg.backoff_multiplier cfg.max_delay_ms
        1 1 cfg.initial_delay_ms e hfn]

/-- Closed witness for C2: the spec's concrete scenario —
`max_attempts = 3`, `initial_delay_ms = 1000`, `backoff_multiplier = 2`,
`max_delay_ms = 10000`, operation always failing with message "boom":
exactly 3 attempts, sleeps `[1000, 2000]`, aggregate error naming 3
attempts and wrapping "boom". -/
theorem claim2_witness :
    (retryWithBackoff (fun _ => (Except.error "boom" : Except String Unit))
        ⟨3, 1000, 10000, 2⟩).result =
      Except.error "Operation failed after 3 attempts. Last error: boom" ∧
    (retryWithBackoff (fun _ => (Except.error "boom" : Except String Unit))
        ⟨3, 1000, 10000, 2⟩).attempts = 3 ∧
    (retryWithBackoff (fun _ => (Except.error "boom" : Except String Unit))
        ⟨3, 1000, 10000, 2⟩).sleeps = [1000, 2000] := by
  have h := (claim2_retry_governor
    (fun _ => (Except.error "boom" : Except String Unit))
    ⟨3, 1000, 10000, 2⟩ (by norm_num)).2.2.2.1
    (fun k _ _ => rfl)
  refine ⟨?_, h.2.1, ?_⟩
  · rw [h.1]; rfl
  · rw [h.2.2]
    show delaySeq 2 10000 1000 2 = [1000, 2000]
    norm_num [delaySeq]

/-! ### The pacing gate (`RateLimiter`, src/retryLogic.js) -/

theorem rateLimiterWait_minDelay (st : RateLimiterState) (now : ℚ) :
    (rateLimiterWait st now).state.minDelayMs = st.minDelayMs := by
  rw [rateLimiterWait]
  by_cases h : now - st.lastMessageTime < st.minDelayMs
  · simp [h]
  · simp [h]

theorem rateLimiterWait_return_ge (st : RateLimiterState) (now : ℚ) :
    st.lastMessageTime + st.minDelayMs ≤ (rateLimiterWait st now).returnTime := by
  rw [rateLimiterWait]
  by_cases h : now - st.lastMessageTime < st.minDelayMs
  · simp only [h, if_true]
    ring_nf
    linarith
  · simp only [h, if_false]
    linarith [not_lt.mp h]

theorem rateLimiterWait_last_eq (st : RateLimiterState) (now : ℚ) :
    (rateLimiterWait st now).state.lastMessageTime =
      (rateLimiterWait st now).returnTime := by
  rw [rateLimiterWait]
  by_cases h : now - st.lastMessageTime < st.minDelayMs
  · simp [h]
  · simp [h]

theorem waitTimes_headD (st : RateLimiterState) (start : ℚ) (gaps : List ℚ) :
    (waitTimes st start gaps).headD 0 = (rateLimiterWait st start).returnTime := by
  cases gaps with
  | nil => rfl
  | cons g gs => rfl

theorem waitTimes_getLastD_ge (gaps : List ℚ) :
    ∀ (st : RateLimiterState) (start : ℚ),
      (rateLimiterWait st start).returnTime +
        gaps.length * st.minDelayMs ≤ (waitTimes st start gaps).getLastD 0 := by
  induction gaps with
  | nil =>
    intro st start
    simp [waitTimes]
  | cons g gs ih =>
    intro st start
    have htail := ih (rateLimiterWait st start).state
      ((rateLimiterWait st start).returnTime + g)
    have hmin : (rateLimiterWait st start).state.minDelayMs = st.minDelayMs :=
      rateLimiterWait_minDelay st start
    have hge : (rateLimiterWait st start).state.lastMessageTime +
        (rateLimiterWait st start).state.minDelayMs ≤
        (rateLimiterWait (rateLimiterWait st start).state
          ((rateLimiterWait st start).returnTime + g)).returnTime :=
      rateLimiterWait_return_ge _ _
    rw [rateLimiterWait_last_eq, hmin] at hge
    have hlast : (waitTimes st start (g :: gs)).getLastD 0 =
        (waitTimes (rateLimiterWait st start).state
          ((rateLimiterWait st start).returnTime + g) gs).getLastD 0 := by
      rw [waitTimes]
      cases hgs : waitTimes (rateLimiterWait st start).state
          ((rateLimiterWait st start).returnTime + g) gs with
      | nil =>
        exfalso
        cases gs <;> simp [waitTimes] at hgs
      | cons x xs => simp [List.getLastD_cons]
    rw [hlast]
    rw [hmin] at htail
    have hlen : ((g :: gs).length : ℚ) = (gs.length : ℚ) + 1 := by
      push_cast [List.length_cons]
      ring
    rw [hlen]
    nlinarith [htail, hge]

/-- C7: `wait()` sleeps exactly the remaining difference
`minDelayMs - (now - lastMessageTime)` when the elapsed time since the last
call is below the minimum interval, and sleeps nothing otherwise; in both
cases it records the (post-sleep) current time as `lastMessageTime`; the
constructor sets `minDelayMs = 1000 / rate`; and across `N = gaps.length + 1`
consecutive `wait()` calls the time from the first return to the last
return is at least `(N - 1) * (1000 / rate)` milliseconds. -/
theorem claim7_rate_limiter (rate : ℚ) (st : RateLimiterState)
    (now start : ℚ) (gaps : List ℚ) :
    (mkRateLimiter rate).minDelayMs = 1000 / rate ∧
    (mkRateLimiter rate).lastMessageTime = 0 ∧
    (rateLimiterWait st now).sleptMs =
      (if now - st.lastMessageTime < st.minDelayMs then
        st.minDelayMs - (now - st.lastMessageTime) else 0) ∧
    (rateLimiterWait st now).returnTime = now + (rateLimiterWait st now).sleptMs ∧
    (rateLimiterWait st now).state.lastMessageTime =
      (rateLimiterWait st now).returnTime ∧
    (waitTimes (mkRateLimiter rate) start gaps).headD 0 +
        gaps.length * (1000 / rate) ≤
      (waitTimes (mkRateLimiter rate) start gaps).getLastD 0 := by
  refine ⟨rfl, rfl, ?_, ?_, rateLimiterWait_last_eq st now, ?_⟩
  · rw [rateLimiterWait]
    by_cases h : now - st.lastMessageTime < st.minDelayMs
    · simp [h]
    · simp [h]
  · rw [rateLimiterWait]
    by_cases h : now - st.lastMessageTime < st.minDelayMs
    · simp [h]
    · simp [h]
  · rw [waitTimes_headD]
    have := waitTimes_getLastD_ge gaps (mkRateLimiter rate) start
    simpa [mkRateLimiter] using this

/-! ### Contact validation (`validateContacts`, src/csvParser.js) -/

theorem data_plus_append (s : String) :
    ("+" ++ s).data = '+' :: s.data := by
  rw [String.data_append]
  rfl

theorem cleanPhone_head (v : String) :
    (cleanPhone v).data.head? = some '+' := by
  rw [cleanPhone]
  by_cases h : (stripPhoneChars v).data.head? = some '+'
  · rw [if_pos h]; exact h
  · simp only [h, if_false]
    rw [data_plus_append]
    rfl

theorem stripPhoneChars_no_sep (v : String) (ch : Char)
    (h : ch ∈ (stripPhoneChars v).data) :
    ch.isWhitespace = false ∧ ch ≠ '-' ∧ ch ≠ '(' ∧ ch ≠ ')' := by
  rw [stripPhoneChars] at h
  simp only [List.mem_filter] at h
  have := h.2
  simp only [Bool.not_eq_true'] at this
  simp only [Bool.or_eq_false_iff] at this
  obtain ⟨⟨⟨h1, h2⟩, h3⟩, h4⟩ := this
  refine ⟨h1, ?_, ?_, ?_⟩
  · intro hc; rw [hc] at h2; simp at h2
  · intro hc; rw [hc] at h3; simp at h3
  · intro hc; rw [hc] at h4; simp at h4

theorem cleanPhone_no_sep (v : String) (ch : Char)
    (h : ch ∈ (cleanPhone v).data) :
    ch.isWhitespace = false ∧ ch ≠ '-' ∧ ch ≠ '(' ∧ ch ≠ ')' := by
  rw [cleanPhone] at h
  by_cases hb : (stripPhoneChars v).data.head? = some '+'
  · rw [if_pos hb] at h
    exact stripPhoneChars_no_sep v ch h
  · rw [if_neg hb, data_plus_append] at h
    rcases List.mem_cons.mp h with h | h
    · subst h
      refine ⟨rfl, by decide, by decide, by decide⟩
    · exact stripPhoneChars_no_sep v ch h

theorem validateOne_phone (c : RawContact) (ct : Contact)
    (h : validateOne c = some ct) : ∃ v, ct.phone = cleanPhone v := by
  rw [validateOne] at h
  cases hk : findPhoneKey c with
  | none => simp [hk] at h
  | some k =>
    simp only [hk] at h
    cases hv : lookupField c k with
    | none => simp [hv] at h
    | some v =>
      simp only [hv] at h
      by_cases hemp : v = ""
      · simp [hemp] at h
      · rw [if_neg hemp] at h
        refine ⟨v, ?_⟩
        have := Option.some.inj h
        rw [← this]

theorem validateAux_valid_from (raws : List RawContact) :
    ∀ (i : Nat) (ct : Contact), ct ∈ (validateAux raws i).1 →
      ∃ c ∈ raws, validateOne c = some ct := by
  induction raws with
  | nil => intro i ct h; exact absurd h (by simp [validateAux])
  | cons c cs ih =>
    intro i ct h
    rw [validateAux] at h
    cases hv : validateOne c with
    | some ct' =>
      rw [hv] at h
      rcases List.mem_cons.mp h with h | h
      · exact ⟨c, List.mem_cons_self c cs, by rw [hv, h]⟩
      · obtain ⟨c', hc', hv'⟩ := ih (i + 1) ct h
        exact ⟨c', List.mem_cons_of_mem c hc', hv'⟩
    | none =>
      rw [hv] at h
      obtain ⟨c', hc', hv'⟩ := ih (i + 1) ct h
      exact ⟨c', List.mem_cons_of_mem c hc', hv'⟩

theorem validateAux_invalid_from (raws : List RawContact) :
    ∀ (i : Nat) (c : RawContact), c ∈ raws → validateOne c = none →
      ∃ j, (j, c, "Missing phone number") ∈ (validateAux raws i).2 := by
  induction raws with
  | nil => intro i c h; exact absurd h (by simp)
  | cons c₀ cs ih =>
    intro i c hc hnone
    rw [validateAux]
    rcases List.mem_cons.mp hc with hc | hc
    · subst hc
      rw [hnone]
      exact ⟨i + 2, List.mem_cons_self _ _⟩
    · obtain ⟨j, hj⟩ := ih (i + 1) c hc hnone
      cases hv : validateOne c₀ with
      | some ct => exact ⟨j, hj⟩
      | none => exact ⟨j, List.mem_cons_of_mem _ hj⟩

theorem validateAux_length (raws : List RawContact) :
    ∀ (i : Nat),
      (validateAux raws i).1.length + (validateAux raws i).2.length =
        raws.length := by
  induction raws with
  | nil => intro i; rfl
  | cons c cs ih =>
    intro i
    rw [validateAux]
    cases hv : validateOne c with
    | some ct => simp only [List.length_cons]; rw [← ih (i + 1)]; omega
    | none => simp only [List.length_cons]; rw [← ih (i + 1)]; omega

/-- C8 (counterexample): the claim says every valid contact's phone is a
leading `'+'` followed by digits only.  The source never checks for digits:
the row `{"phone": "5a5"}` is accepted as valid with phone `"+5a5"`, which
is not digits-only. -/
theorem claim8_counterexample :
    (validateContacts [[("phone", "5a5")]]).1.map (fun ct => ct.phone) =
      ["+5a5"] ∧
    isIntlPhone "+5a5" = false := by
  refine ⟨?_, by decide⟩
  rfl

/-- C8 (amended): every contact placed in the valid list has a phone that
starts with `'+'` and contains no whitespace, dash or parenthesis (it is
the original value stripped of those separators, with `'+'` prepended when
missing) — but digits-only is not enforced; rows with no locatable
phone-equivalent field (or an empty value) go to the invalid list with
reason "Missing phone number"; every row lands in exactly one of the two
lists. -/
theorem claim8_phone_normalization (raws : List RawContact) :
    (∀ ct, ct ∈ (validateContacts raws).1 →
      ct.phone.data.head? = some '+' ∧
      (∀ ch, ch ∈ ct.phone.data →
        ch.isWhitespace = false ∧ ch ≠ '-' ∧ ch ≠ '(' ∧ ch ≠ ')')) ∧
    (∀ c, c ∈ raws → validateOne c = none →
      ∃ j, (j, c, "Missing phone number") ∈ (validateContacts raws).2) ∧
    (validateContacts raws).1.length + (validateContacts raws).2.length =
      raws.length := by
  refine ⟨?_, ?_, validateAux_length raws 0⟩
  · intro ct hct
    obtain ⟨c, _, hv⟩ := validateAux_valid_from raws 0 ct hct
    obtain ⟨v, hphone⟩ := validateOne_phone c ct hv
    rw [hphone]
    exact ⟨cleanPhone_head v, fun ch hch => cleanPhone_no_sep v ch hch⟩
  · intro c hc hnone
    exact validateAux_invalid_from raws 0 c hc hnone

/-! ### Ledger loading and process exit (`StateTracker.load`, `main`) -/

/-- C9: `load()` on a missing file initializes an empty ledger and persists
it immediately; on a corrupt file it raises; a corrupt-ledger
initialization error aborts the run before any contact is processed with
exit code 1; with a missing or readable state file the process exits 0
after the loop, for every pattern of per-contact transport and persistence
failures. -/
theorem claim9_load_fatal (digest : String → String)
    (render : Contact → String) (dryRun : Bool) (sendOk saveOk : Nat → Bool)
    (clock : Nat → Nat) (valid : List Contact) (l : Ledger) :
    loadState FileModel.missing =
      Except.ok (⟨[], []⟩, FileModel.stored []) ∧
    loadState FileModel.corrupt = Except.error "Failed to load state" ∧
    loadState (FileModel.stored l) = Except.ok (⟨l, l⟩, FileModel.stored l) ∧
    mainExit FileModel.corrupt digest render dryRun sendOk saveOk clock valid
      = (1, none) ∧
    (mainExit FileModel.missing digest render dryRun sendOk saveOk clock
      valid).1 = 0 ∧
    (mainExit (FileModel.stored l) digest render dryRun sendOk saveOk clock
      valid).1 = 0 :=
  ⟨rfl, rfl, rfl, rfl, rfl, rfl⟩

/-! ### C10: transport success followed by a failing ledger write -/

theorem processContact_save_fail (digest : String → String)
    (render : Contact → String) (ts : Nat) (st : RunState) (c : Contact)
    (hdup : wasMessageSent digest st.tracker.mem c.phone (render c) = false) :
    (processContact digest render false true false ts st c).failed = st.failed + 1 ∧
    (processContact digest render false true false ts st c).sent = st.sent ∧
    (processContact digest render false true false ts st c).skipped = st.skipped ∧
    (processContact digest render false true false ts st c).tracker.disk =
      st.tracker.disk := by
  unfold processContact
  simp [hdup, markAsSent]

/-- C10: when the transport send succeeds but the ledger write inside
`markAsSent` throws, the orchestrator counts the contact as failed (not
sent), persists no entry for the contact's fingerprint (so a later run
loading the persisted ledger would not skip it), and continues with the
next contact. -/
theorem claim10_mark_failure (digest : String → String)
    (render : Contact → String) (sendOk saveOk : Nat → Bool)
    (clock : Nat → Nat) (i : Nat) (st : RunState) (c : Contact)
    (cs : List Contact)
    (hdup : wasMessageSent digest st.tracker.mem c.phone (render c) = false)
    (hsend : sendOk i = true) (hsave : saveOk i = false) :
    (processContact digest render false (sendOk i) (saveOk i) (clock i) st c).failed
      = st.failed + 1 ∧
    (processContact digest render false (sendOk i) (saveOk i) (clock i) st c).sent
      = st.sent ∧
    (processContact digest render false (sendOk i) (saveOk i) (clock i) st c).tracker.disk
      = st.tracker.disk ∧
    (wasMessageSent digest st.tracker.disk c.phone (render c) = false →
      wasMessageSent digest
        (processContact digest render false (sendOk i) (saveOk i) (clock i) st c).tracker.disk
        c.phone (render c) = false) ∧
    runLoop digest render false sendOk saveOk clock (c :: cs) i st =
      runLoop digest render false sendOk saveOk clock cs (i + 1)
        (processContact digest render false (sendOk i) (saveOk i) (clock i) st c) := by
  rw [hsend, hsave]
  obtain ⟨h1, h2, _, h4⟩ := processContact_save_fail digest render (clock i) st c hdup
  refine ⟨h1, h2, h4, ?_, ?_⟩
  · intro hnot
    rw [h4]; exact hnot
  · rw [runLoop, hsend, hsave]

/-- Closed witness for C10 at a concrete contact and empty ledger. -/
theorem claim10_witness :
    (processContact id (fun c => c.phone) false ((fun _ => true) 0)
      ((fun _ => false) 0) ((fun i => i) 0)
      (initialStats ⟨[], []⟩ 1) ⟨"+15551234567", []⟩).failed
      = (initialStats (⟨[], []⟩ : TrackerState) 1).failed + 1 ∧
    (processContact id (fun c => c.phone) false ((fun _ => true) 0)
      ((fun _ => false) 0) ((fun i => i) 0)
      (initialStats ⟨[], []⟩ 1) ⟨"+15551234567", []⟩).sent
      = (initialStats (⟨[], []⟩ : TrackerState) 1).sent ∧
    (processContact id (fun c => c.phone) false ((fun _ => true) 0)
      ((fun _ => false) 0) ((fun i => i) 0)
      (initialStats ⟨[], []⟩ 1) ⟨"+15551234567", []⟩).tracker.disk
      = (initialStats (⟨[], []⟩ : TrackerState) 1).tracker.disk ∧
    (wasMessageSent id (initialStats (⟨[], []⟩ : TrackerState) 1).tracker.disk
        "+15551234567" ((fun (c : Contact) => c.phone) ⟨"+15551234567", []⟩) = false →
      wasMessageSent id
        (processContact id (fun c => c.phone) false ((fun _ => true) 0)
          ((fun _ => false) 0) ((fun i => i) 0)
          (initialStats ⟨[], []⟩ 1) ⟨"+15551234567", []⟩).tracker.disk
        "+15551234567" ((fun (c : Contact) => c.phone) ⟨"+15551234567", []⟩) = false) ∧
    runLoop id (fun c => c.phone) false (fun _ => true) (fun _ => false)
      (fun i => i) [⟨"+15551234567", []⟩] 0 (initialStats ⟨[], []⟩ 1) =
      runLoop id (fun c => c.phone) false (fun _ => true) (fun _ => false)
        (fun i => i) [] (0 + 1)
        (processContact id (fun c => c.phone) false ((fun _ => true) 0)
          ((fun _ => false) 0) ((fun i => i) 0)
          (initialStats ⟨[], []⟩ 1) ⟨"+15551234567", []⟩) :=
  claim10_mark_failure id (fun c => c.phone) (fun _ => true) (fun _ => false)
    (fun i => i) 0 (initialStats ⟨[], []⟩ 1) ⟨"+15551234567", []⟩ []
    (by decide) rfl rfl

/-- Closed witness for C5 on an empty tracker with concrete inputs. -/
theorem claim5_witness :
    ((ledgerKeys ((markAsSent id
        ((markAsSent id ⟨[], []⟩ "+1" "hello" 0 ⟨"+1", []⟩ true).1)
        "+1" "hello" 1 ⟨"+1", []⟩ true).1).mem).count (generateHash id "+1" "hello") = 1) ∧
    (ledgerKeys (applyOps id [] (⟨[], []⟩ : TrackerState)).mem).Nodup ∧
    (∀ k, k ∈ ledgerKeys (([] : Ledger)) →
      k ∈ ledgerKeys (applyOps id [] (⟨[], []⟩ : TrackerState)).mem) :=
  claim5_mark_idempotent id ⟨[], []⟩ "+1" "hello" 0 1 ⟨"+1", []⟩ ⟨"+1", []⟩ []
    (by decide)

end WhatsAppAutomator
